import Mathlib

set_option maxRecDepth 4000

/-!
Verification of the GCE composability-scoring engine
(`gce.core.cc_surface`: `composition.py`, `validators.py`, `recommend.py`,
`api.py`, `metrics.py`) against its natural-language specification.

Python floats are modelled by the type `F`: a finite rational value or one
of the IEEE non-finite sentinels (`nan`, `inf`, `ninf`).  Arithmetic on
finite values is exact rational arithmetic; the branch structure of the
source (comparisons, `math.isfinite` tests, edge-case guards) is what the
claims are about, and it is preserved exactly, including the IEEE rule that
every comparison involving NaN is false.
-/

deriving instance DecidableEq for Except

namespace GCE

/-- Model of a Python `float`: finite rational, `+inf`, `-inf`, or NaN. -/
inductive F where
  | fin (q : ℚ)
  | inf
  | ninf
  | nan
deriving DecidableEq, Repr

namespace F

/-- `math.isfinite`. -/
def isFinite : F → Bool
  | fin _ => true
  | _ => false

/-- IEEE `<` on floats: any comparison involving NaN is false. -/
def lt : F → F → Bool
  | fin a, fin b => a < b
  | fin _, inf => true
  | ninf, fin _ => true
  | ninf, inf => true
  | _, _ => false

/-- IEEE `<=` on floats: any comparison involving NaN is false. -/
def le : F → F → Bool
  | fin a, fin b => a ≤ b
  | fin _, inf => true
  | inf, inf => true
  | ninf, fin _ => true
  | ninf, inf => true
  | ninf, ninf => true
  | _, _ => false

/-- IEEE `==` on floats: NaN is not equal to anything, including itself. -/
def feq : F → F → Bool
  | fin a, fin b => a = b
  | inf, inf => true
  | ninf, ninf => true
  | _, _ => false

/-- Float negation. -/
def neg : F → F
  | fin q => fin (-q)
  | inf => ninf
  | ninf => inf
  | nan => nan

/-- Float addition (exact on finite values; IEEE rules for non-finite). -/
def add : F → F → F
  | nan, _ => nan
  | _, nan => nan
  | inf, ninf => nan
  | ninf, inf => nan
  | inf, _ => inf
  | _, inf => inf
  | ninf, _ => ninf
  | _, ninf => ninf
  | fin a, fin b => fin (a + b)

/-- Float subtraction. -/
def sub (x y : F) : F := add x (neg y)

/-- Float division (exact on finite values; IEEE rules for non-finite
operands).  Division of a finite value by finite zero raises
`ZeroDivisionError` in Python; every call site in the embedded code either
guards the denominator away from zero or checks for zero explicitly before
calling `div`, so the `b = 0` case below is unreachable there and is mapped
to `nan` as a junk value. -/
def div : F → F → F
  | nan, _ => nan
  | _, nan => nan
  | fin a, fin b => if b = 0 then nan else fin (a / b)
  | inf, fin b => if 0 ≤ b then inf else ninf
  | ninf, fin b => if 0 ≤ b then ninf else inf
  | fin _, inf => fin 0
  | fin _, ninf => fin 0
  | _, _ => nan

end F

/-- Python `max(a, b)` on two floats: returns `b` exactly when `b > a`
(so the first argument wins ties and NaN comparisons). -/
def pymax (a b : F) : F := if F.lt a b then b else a

-- ---------------------------------------------------------------------------
-- composition.py
-- ---------------------------------------------------------------------------

/-- `Objective` literal type from `composition.py`. -/
inductive Objective where
  | minimize
  | maximize
deriving DecidableEq, Repr

/-- The string value carried by an `Objective` literal. -/
def Objective.toStr : Objective → String
  | .minimize => "minimize"
  | .maximize => "maximize"

/-- `CCLabel` literal type from `composition.py`. -/
inductive CCLabel where
  | Constructive
  | Independent
  | Destructive
deriving DecidableEq, Repr

/-- `INDEPENDENT_TOL = 0.05` from `composition.py`. -/
def INDEPENDENT_TOL : ℚ := 1 / 20

/-- The list of finite baseline values, in mapping order
(the `finite_vals` loop of `_best_singleton_value`). -/
def finiteVals (J_baselines : List (String × F)) : List ℚ :=
  J_baselines.filterMap fun kv =>
    match kv.2 with
    | F.fin q => some q
    | _ => none

/-- `_best_singleton_value` from `composition.py`: best finite singleton
value under the objective, or `none` when the mapping is empty or all
entries are non-finite. -/
def bestSingletonValue (J_baselines : List (String × F)) (objective : Objective) :
    Option ℚ :=
  if J_baselines = [] then none
  else
    match finiteVals J_baselines with
    | [] => none
    | v :: vs =>
      if objective = .maximize then some (vs.foldl max v)
      else some (vs.foldl min v)

/-- `compute_cc` from `composition.py`. -/
def compute_cc (J_baselines : List (String × F)) (J_comp : F)
    (objective : Objective) : F :=
  match bestSingletonValue J_baselines objective with
  | none => F.nan
  | some jBest =>
    if objective = .minimize then
      if jBest = 0 then
        if F.feq J_comp (F.fin 0) then F.fin 1 else F.inf
      else F.div J_comp (F.fin jBest)
    else
      if F.le J_comp (F.fin 0) then
        if jBest ≤ 0 then F.fin 1 else F.inf
      else F.div (F.fin jBest) J_comp

/-- `classify_cc` from `composition.py`. -/
def classify_cc (cc : F) (tol : F) : CCLabel :=
  if cc.isFinite = false then .Independent
  else if F.lt cc (F.sub (F.fin 1) tol) then .Constructive
  else if F.lt (F.add (F.fin 1) tol) cc then .Destructive
  else .Independent

-- ---------------------------------------------------------------------------
-- Python numeric string formatting (f"{x:.2f}", f"{x:.3g}", repr)
-- Used verbatim by recommend.py and the validator error messages.
-- ---------------------------------------------------------------------------

/-- Remove trailing `0` characters from a string of digits. -/
def stripTrailingZeros (s : String) : String :=
  String.mk ((s.data.reverse.dropWhile (· = '0')).reverse)

/-- Left-pad a digit string with `0` up to width `n`. -/
def padZeros (s : String) (n : Nat) : String :=
  String.mk (List.replicate (n - s.length) '0') ++ s

/-- Fuel-driven helper for `numDigits`. -/
def numDigitsAux : Nat → Nat → Nat
  | 0, _ => 0
  | _ + 1, 0 => 0
  | f + 1, n => 1 + numDigitsAux f (n / 10)

/-- Number of decimal digits of a positive natural number (0 for 0). -/
def numDigits (n : Nat) : Nat := numDigitsAux n n

/-- Round a rational to the nearest integer, ties to even
(the rounding mode of Python float formatting). -/
def roundHalfEvenInt (q : ℚ) : ℤ :=
  let f := ⌊q⌋
  let r := q - f
  if r < 1 / 2 then f
  else if 1 / 2 < r then f + 1
  else if f % 2 = 0 then f else f + 1

/-- Decimal exponent of a positive rational: the unique `e` with
`10 ^ e ≤ q < 10 ^ (e + 1)`. -/
def decExpPos (q : ℚ) : ℤ :=
  if 1 ≤ q then (numDigits q.floor.toNat : ℤ) - 1
  else
    let d := numDigits (1 / q).floor.toNat
    if q = (10 : ℚ) ^ (1 - (d : ℤ)) then 1 - (d : ℤ) else -(d : ℤ)

/-- Python fixed-point formatting `f"{q:.{prec}f}"` on an exact rational. -/
def formatFixed (prec : Nat) (q : ℚ) : String :=
  let sign := if q < 0 then "-" else ""
  let n := (roundHalfEvenInt (|q| * (10 : ℚ) ^ prec)).toNat
  let ip := n / 10 ^ prec
  let fp := n % 10 ^ prec
  if prec = 0 then sign ++ toString ip
  else sign ++ toString ip ++ "." ++ padZeros (toString fp) prec

/-- Exponent suffix of Python scientific notation: at least two digits,
always signed (`e+04`, `e-05`). -/
def sciExpStr (e : ℤ) : String :=
  let s := toString e.natAbs
  let s := if s.length < 2 then padZeros s 2 else s
  (if e < 0 then "e-" else "e+") ++ s

/-- Python general formatting `f"{q:.{prec}g}"` on an exact rational:
round to `prec` significant digits, use fixed notation when the decimal
exponent is in `[-4, prec)` and scientific notation otherwise, and strip
trailing zeros. -/
def formatGen (prec : Nat) (q : ℚ) : String :=
  let p := max prec 1
  if q = 0 then "0"
  else
    let sign := if q < 0 then "-" else ""
    let e0 := decExpPos |q|
    let m0 := roundHalfEvenInt (|q| / (10 : ℚ) ^ (e0 - p + 1))
    let me := if m0 = 10 ^ p then ((10 : ℤ) ^ (p - 1), e0 + 1) else (m0, e0)
    let digits := toString me.1.toNat
    let e := me.2
    if -4 ≤ e ∧ e < p then
      if 0 ≤ e then
        let k := (e + 1).toNat
        let ipart := digits.take k
        let fpart := stripTrailingZeros (digits.drop k)
        if fpart = "" then sign ++ ipart else sign ++ ipart ++ "." ++ fpart
      else
        let zeros := String.mk (List.replicate (-(e + 1)).toNat '0')
        let fpart := stripTrailingZeros (zeros ++ digits)
        sign ++ "0." ++ fpart
    else
      let d0 := digits.take 1
      let rest := stripTrailingZeros (digits.drop 1)
      let mant := if rest = "" then d0 else d0 ++ "." ++ rest
      sign ++ mant ++ sciExpStr e

/-- `f"{x:.{prec}f}"` on a float, with the non-finite spellings Python uses. -/
def pyFixed (prec : Nat) : F → String
  | F.nan => "nan"
  | F.inf => "inf"
  | F.ninf => "-inf"
  | F.fin q => formatFixed prec q

/-- `f"{x:.{prec}g}"` on a float, with the non-finite spellings Python uses. -/
def pyGen (prec : Nat) : F → String
  | F.nan => "nan"
  | F.inf => "inf"
  | F.ninf => "-inf"
  | F.fin q => formatGen prec q

/-- `repr` of a float as interpolated by `{v!r}` in the validator error
messages (decimal-exact rationals render at their shortest form). -/
def pyReprFloat : F → String
  | F.nan => "nan"
  | F.inf => "inf"
  | F.ninf => "-inf"
  | F.fin q => if q.den = 1 then toString q.num ++ ".0" else formatGen 17 q

/-- `repr` of a Python string as interpolated by `{k!r}`. -/
def pyReprStr (s : String) : String := "\x27" ++ s ++ "\x27"

/-- Sanity checks of the formatting model against pinned Python outputs
(`f"{x:.2f}"` and `f"{x:.3g}"` at the values exercised by the tests). -/
theorem formatting_model_sanity :
    formatFixed 2 (3 / 10) = "0.30" ∧
    formatFixed 2 (4 / 5) = "0.80" ∧
    formatFixed 2 (0 : ℚ) = "0.00" ∧
    formatFixed 2 (-1 / 1000 : ℚ) = "-0.00" ∧
    formatGen 3 (4 / 5) = "0.8" ∧
    formatGen 3 (1 : ℚ) = "1" ∧
    formatGen 3 (6 / 5) = "1.2" ∧
    formatGen 3 (50 : ℚ) = "50" ∧
    formatGen 3 (12345 : ℚ) = "1.23e+04" ∧
    formatGen 3 (1234 / 100000000 : ℚ) = "1.23e-05" ∧
    formatGen 3 (1234 / 10000000 : ℚ) = "0.000123" := by
  refine ⟨?_, ?_, ?_, ?_, ?_, ?_, ?_, ?_, ?_, ?_, ?_⟩ <;> with_unfolding_all decide

-- ---------------------------------------------------------------------------
-- validators.py: the validated RunBundle model
-- ---------------------------------------------------------------------------

/-- A `RunBundle` that passed pydantic validation (`validators.py`).
All numeric fields are finite, hence plain rationals. -/
structure RunBundle where
  theta : ℚ
  patterns : List String
  rule : String
  J_baselines : List (String × ℚ)
  J_composed : ℚ
  objective : Objective
deriving DecidableEq, Repr

/-- A `Verdict` that passed pydantic validation (`validators.py`). -/
structure Verdict where
  CC : F
  label : CCLabel
  recommendation : String
  next_tests : List String
  checklist : List String
deriving DecidableEq, Repr

/-- `Verdict._string_list`: normalise a string list by stripping each entry
and dropping blanks. -/
def cleanStringList (v : List String) : List String :=
  (v.map String.trim).filter (fun s => s ≠ "")

/-- Construction of a `Verdict` through pydantic validation: the CC field
must be a finite, non-negative float (`Verdict._cc_ok`, and the `ge=0.0`
field constraint), otherwise a validation error is raised. -/
def mkVerdict (cc : F) (label : CCLabel) (recommendation : String)
    (next_tests checklist : List String) : Except String Verdict :=
  if F.lt cc (F.fin 0) || cc.isFinite = false then
    .error ("CC must be a finite, non-negative float, got " ++ pyReprFloat cc)
  else
    .ok ⟨cc, label, recommendation, cleanStringList next_tests,
         cleanStringList checklist⟩

-- ---------------------------------------------------------------------------
-- recommend.py
-- ---------------------------------------------------------------------------

/-- `_best_baseline` from `recommend.py`: the best-performing singleton
entry under the objective, or the `("<none>", nan)` sentinel.  Python
`min`/`max` with a key keep the first extremal entry in iteration order. -/
def bestBaseline (bundle : RunBundle) : String × F :=
  match bundle.J_baselines with
  | [] => ("<none>", F.nan)
  | x :: xs =>
    let r :=
      if bundle.objective = .maximize then
        xs.foldl (fun acc y => if acc.2 < y.2 then y else acc) x
      else
        xs.foldl (fun acc y => if y.2 < acc.2 then y else acc) x
    (r.1, F.fin r.2)

/-- `_tone_for_label` from `recommend.py`. -/
def toneForLabel : CCLabel → String
  | .Constructive => "Lean into the synergy."
  | .Independent => "Hold the line — the blend is neutral."
  | .Destructive => "Dial back the composition until diagnostics improve."

/-- `make_recommendation` from `recommend.py`. -/
def make_recommendation (bundle : RunBundle) (CC : F) (label : CCLabel) :
    String :=
  let tone := toneForLabel label
  let bb := bestBaseline bundle
  let recommendation :=
    if bundle.J_baselines ≠ [] then
      tone ++ " Rule \x27" ++ bundle.rule ++ "\x27 at θ=" ++
        formatFixed 2 bundle.theta ++ " delivers " ++
        formatGen 3 bundle.J_composed ++ " vs singleton \x27" ++ bb.1 ++
        "\x27=" ++ pyGen 3 bb.2 ++ " (CC=" ++ pyFixed 2 CC ++
        ", objective=" ++ bundle.objective.toStr ++ ")."
    else
      tone ++ " Rule \x27" ++ bundle.rule ++ "\x27 at θ=" ++
        formatFixed 2 bundle.theta ++ " delivers " ++
        formatGen 3 bundle.J_composed ++ " with no singleton baselines; " ++
        "treat CC=" ++ pyFixed 2 CC ++ " as relative to a neutral reference " ++
        "(objective=" ++ bundle.objective.toStr ++ ")."
  if bundle.patterns ≠ [] then
    recommendation ++ " Patterns in play: " ++
      String.intercalate ", " bundle.patterns ++ "."
  else recommendation

/-- `make_next_tests` from `recommend.py`. -/
def make_next_tests (bundle : RunBundle) (_CC : F) (label : CCLabel) :
    List String :=
  let hasBaselines := bundle.J_baselines ≠ []
  let bb := bestBaseline bundle
  let patStr := String.intercalate ", " bundle.patterns
  match label with
  | .Constructive =>
    [ "Expand the θ sweep around " ++ formatFixed 2 bundle.theta ++
        " for rule \x27" ++ bundle.rule ++ "\x27 to map the constructive window.",
      if bundle.patterns ≠ [] then
        "Run leave-one-pattern-out ablations for " ++ patStr ++
          " to verify their individual lifts."
      else
        "Introduce diagnostic ablations for each component before locking the policy.",
      if hasBaselines then
        "Re-evaluate singleton \x27" ++ bb.1 ++ "\x27 to confirm the " ++
          bundle.objective.toStr ++ " reference (" ++ pyGen 3 bb.2 ++ ")."
      else
        "Establish at least one singleton baseline on the same dataset to quantify the lift." ]
  | .Destructive =>
    [ if hasBaselines then
        "Re-run singleton \x27" ++ bb.1 ++ "\x27 (" ++ pyGen 3 bb.2 ++
          ") as the fallback while disabling rule \x27" ++ bundle.rule ++ "\x27."
      else
        "Define and measure a reference singleton baseline to serve as a safe fallback.",
      "Probe lower θ values than " ++ formatFixed 2 bundle.theta ++
        " to find a safer operating point.",
      "Audit the composed pipeline for unexpected interactions, data leakage, or misconfigured guards." ]
  | .Independent =>
    [ "Perform a finer θ sweep around " ++ formatFixed 2 bundle.theta ++
        " to confirm neutral behavior.",
      if hasBaselines then
        "Validate measurements for singleton \x27" ++ bb.1 ++ "\x27 (" ++
          pyGen 3 bb.2 ++ ") to ensure the comparison is trustworthy."
      else
        "Measure at least one singleton baseline to anchor the neutrality judgment.",
      "Try orthogonal pattern combinations or alternative rules to search for stronger signals." ]

/-- `make_checklist` from `recommend.py`. -/
def make_checklist (bundle : RunBundle) : List String :=
  let count := bundle.J_baselines.length
  [ "Confirm objective=\x27" ++ bundle.objective.toStr ++
      "\x27 aligns with how J is interpreted.",
    if count > 0 then
      "Ensure " ++ toString count ++
        " singleton baselines use the same dataset and evaluation seed as the composition."
    else
      "Record and compute at least one singleton baseline on the same dataset as the composition.",
    "Document how θ=" ++ formatFixed 2 bundle.theta ++ " for rule \x27" ++
      bundle.rule ++ "\x27 was chosen.",
    if bundle.patterns ≠ [] then
      "Ensure instrumentation exists for patterns: " ++
        String.intercalate ", " bundle.patterns ++ "."
    else
      "Record why no pattern diagnostics were supplied." ]

-- ---------------------------------------------------------------------------
-- api.py: compute_verdict (fallback backend)
-- ---------------------------------------------------------------------------

/-- `compute_verdict` from `api.py` (fallback backend): compute CC,
classify it, generate the narrative pieces, and construct the `Verdict`
model (whose pydantic validation can raise). -/
def compute_verdict (bundle : RunBundle) : Except String Verdict :=
  let CC := compute_cc
    (bundle.J_baselines.map fun kv => (kv.1, F.fin kv.2))
    (F.fin bundle.J_composed) bundle.objective
  let label := classify_cc CC (F.fin INDEPENDENT_TOL)
  mkVerdict CC label (make_recommendation bundle CC label)
    (make_next_tests bundle CC label) (make_checklist bundle)

/-- Scenario A bundle from the contract tests: baselines `{A: 1.0, B: 1.2}`,
composed `0.8`, objective minimize, θ=0.3, rule `blend`,
patterns `["prior", "denoiser"]`. -/
def bundleA : RunBundle :=
  { theta := 3 / 10
    patterns := ["prior", "denoiser"]
    rule := "blend"
    J_baselines := [("A", 1), ("B", 6 / 5)]
    J_composed := 4 / 5
    objective := .minimize }

-- ---------------------------------------------------------------------------
-- validators.py: RunBundle field validators on raw input
-- ---------------------------------------------------------------------------

/-- A raw numeric-ish input value: a float, or something `float(...)`
raises on (non-numeric). -/
inductive RawNum where
  | num (x : F)
  | nonnum
deriving DecidableEq, Repr

/-- `RunBundle._theta_ok`: theta must be a finite float. -/
def validateTheta (v : F) : Except String ℚ :=
  match v with
  | F.fin q => .ok q
  | _ => .error "theta must be a finite float"

/-- `RunBundle._patterns_ok`: coerce entries to stripped strings and drop
the blanks. -/
def validatePatterns (v : List String) : List String :=
  (v.map String.trim).filter (fun s => s ≠ "")

/-- `RunBundle._rule_ok`: rule must strip to a non-empty string. -/
def validateRule (v : String) : Except String String :=
  let s := v.trim
  if s = "" then .error "rule must be a non-empty string" else .ok s

/-- `RunBundle._j_map_ok`: every baseline value must be numeric and finite;
the first offending entry raises. -/
def validateJMap : List (String × RawNum) → Except String (List (String × ℚ))
  | [] => .ok []
  | (k, .num (F.fin q)) :: rest =>
    (validateJMap rest).map (fun m => (k, q) :: m)
  | (k, .num x) :: _ =>
    .error ("J_baselines[" ++ pyReprStr k ++ "] must be finite, got " ++
      pyReprFloat x)
  | (k, .nonnum) :: _ =>
    .error ("J_baselines[" ++ pyReprStr k ++ "] must be numeric")

/-- `RunBundle._j_ok`: J_composed must be numeric and finite. -/
def validateJComposed (v : RawNum) : Except String ℚ :=
  match v with
  | .num (F.fin q) => .ok q
  | .num x => .error ("J_composed must be finite, got " ++ pyReprFloat x)
  | .nonnum => .error "J_composed must be numeric"

/-- `RunBundle._objective_ok`: strip, lower-case, and require one of
`minimize` / `maximize`.  This is a `mode="after"` pydantic validator, so
it only ever runs on values that already passed the core validation of the
annotated type (see `validateObjective`); its normalisation is dead code. -/
def objective_ok (v : String) : Except String Objective :=
  let norm := v.trim.toLower
  if norm = "minimize" then .ok .minimize
  else if norm = "maximize" then .ok .maximize
  else
    .error ("objective must be \x27minimize\x27 or \x27maximize\x27, got " ++
      pyReprStr v)

/-- Pydantic validation of the `objective` field: the core check of the
annotated type `Literal["minimize", "maximize"]` runs first and rejects
any string that is not an exact match; only then does the `mode="after"`
validator `_objective_ok` run on the surviving literal value. -/
def validateObjective (v : String) : Except String Objective :=
  if v = "minimize" ∨ v = "maximize" then objective_ok v
  else .error "Input should be \x27minimize\x27 or \x27maximize\x27"

/-- Raw (pre-validation) input to the `RunBundle` constructor. -/
structure RawBundle where
  theta : F
  patterns : List String
  rule : String
  J_baselines : List (String × RawNum)
  J_composed : RawNum
  objective : String
deriving DecidableEq, Repr

/-- Constructing a `RunBundle` from raw input: run every field validator,
propagating the first validation error. -/
def RunBundle.validate (r : RawBundle) : Except String RunBundle := do
  let th ← validateTheta r.theta
  let ps := validatePatterns r.patterns
  let ru ← validateRule r.rule
  let jb ← validateJMap r.J_baselines
  let jc ← validateJComposed r.J_composed
  let ob ← validateObjective r.objective
  return ⟨th, ps, ru, jb, jc, ob⟩

-- ---------------------------------------------------------------------------
-- metrics.py: youden_j and compute_cc_max
-- ---------------------------------------------------------------------------

/-- One elementwise step of `youden_j`: the raw difference `tpr - fpr`,
clipped to `[-1, 1]` when finite and preserved unclipped otherwise
(the `np.where(finite_mask, clipped, raw)` line). -/
def youdenElem (t f : F) : F :=
  match F.sub t f with
  | F.fin q => F.fin (max (-1) (min 1 q))
  | r => r

/-- A numeric input to `youden_j`: a Python scalar, or a 1-D array
(the shapes exercised by the contract; broadcasting follows the NumPy
rules for these shapes). -/
inductive NPVal where
  | scalar (x : F)
  | arr (xs : List F)
deriving DecidableEq, Repr

/-- NumPy broadcasting of two 1-D arrays under `youdenElem`: equal lengths
zip, a length-1 side stretches, anything else is a shape mismatch. -/
def broadcastYouden (xs ys : List F) : Option (List F) :=
  if xs.length = ys.length then some (List.zipWith youdenElem xs ys)
  else if xs.length = 1 then
    some (ys.map fun y => youdenElem (xs.getD 0 F.nan) y)
  else if ys.length = 1 then
    some (xs.map fun x => youdenElem x (ys.getD 0 F.nan))
  else none

/-- The textual form of a 1-D shape in the mismatch error message. -/
def shapeStr (n : Nat) : String := "(" ++ toString n ++ ",)"

/-- `youden_j` from `metrics.py`: elementwise `tpr - fpr` with clipping of
finite values, scalar result for two scalar inputs, array result of the
broadcast shape otherwise, and a shape-mismatch error for incompatible
arrays. -/
def youden_j : NPVal → NPVal → Except String NPVal
  | .scalar x, .scalar y => .ok (.scalar (youdenElem x y))
  | .scalar x, .arr ys => .ok (.arr (ys.map fun y => youdenElem x y))
  | .arr xs, .scalar y => .ok (.arr (xs.map fun x => youdenElem x y))
  | .arr xs, .arr ys =>
    match broadcastYouden xs ys with
    | some zs => .ok (.arr zs)
    | none =>
      .error ("tpr and fpr shapes are not broadcastable: " ++
        shapeStr xs.length ++ " vs " ++ shapeStr ys.length)

/-- The error message of `compute_cc_max` for an unsupported policy name. -/
def ccMaxPolicyError (policy : String) : String :=
  "Unsupported zero_denom_policy=" ++ pyReprStr policy ++
    ". Expected one of \x7b\x27independent\x27, \x27nan\x27, \x27zero\x27\x7d."

/-- `compute_cc_max` from `metrics.py`: `j_observed / max(j_dfa, j_dp)`,
with a configurable policy when the denominator is `<= eps`.  The final
division raises Python `ZeroDivisionError` when the denominator is exactly
zero (reachable only for `eps < 0`), modelled as an error value. -/
def compute_cc_max (j_observed j_dfa j_dp : F) (eps : F)
    (zero_denom_policy : String) : Except String F :=
  let denom := pymax j_dfa j_dp
  if F.le denom eps then
    let policy := zero_denom_policy.toLower
    if policy = "independent" then .ok (F.fin 1)
    else if policy = "nan" then .ok F.nan
    else if policy = "zero" then .ok (F.fin 0)
    else .error (ccMaxPolicyError zero_denom_policy)
  else if denom = F.fin 0 then .error "float division by zero"
  else .ok (F.div j_observed denom)

-- ---------------------------------------------------------------------------
-- Helper lemmas
-- ---------------------------------------------------------------------------

theorem F.lt_fin (a b : ℚ) : F.lt (F.fin a) (F.fin b) = decide (a < b) := rfl

theorem F.le_fin (a b : ℚ) : F.le (F.fin a) (F.fin b) = decide (a ≤ b) := rfl

theorem F.sub_fin (a b : ℚ) : F.sub (F.fin a) (F.fin b) = F.fin (a - b) := by
  simp [F.sub, F.add, F.neg, sub_eq_add_neg]

theorem F.add_fin (a b : ℚ) : F.add (F.fin a) (F.fin b) = F.fin (a + b) := rfl

theorem F.div_fin (a b : ℚ) (hb : b ≠ 0) :
    F.div (F.fin a) (F.fin b) = F.fin (a / b) := by
  simp [F.div, hb]

theorem F.feq_fin_zero_iff (x : F) : F.feq x (F.fin 0) = true ↔ x = F.fin 0 := by
  cases x <;> simp [F.feq]

theorem foldl_min_mem (vs : List ℚ) : ∀ v : ℚ, vs.foldl min v ∈ v :: vs := by
  induction vs with
  | nil => intro v; simp
  | cons a t ih =>
    intro v
    have h := ih (min v a)
    simp only [List.foldl_cons]
    rcases List.mem_cons.mp h with h1 | h2
    · rcases min_choice v a with hv | ha
      · rw [h1, hv]; exact List.mem_cons_self _ _
      · rw [h1, ha]; exact List.mem_cons_of_mem _ (List.mem_cons_self _ _)
    · exact List.mem_cons_of_mem _ (List.mem_cons_of_mem _ h2)

theorem foldl_min_le (vs : List ℚ) :
    ∀ v : ℚ, vs.foldl min v ≤ v ∧ ∀ x ∈ vs, vs.foldl min v ≤ x := by
  induction vs with
  | nil => intro v; exact ⟨le_refl v, by simp⟩
  | cons a t ih =>
    intro v
    obtain ⟨h1, h2⟩ := ih (min v a)
    simp only [List.foldl_cons]
    refine ⟨le_trans h1 (min_le_left v a), ?_⟩
    intro x hx
    rcases List.mem_cons.mp hx with rfl | hx
    · exact le_trans h1 (min_le_right v x)
    · exact h2 x hx

theorem foldl_max_mem (vs : List ℚ) : ∀ v : ℚ, vs.foldl max v ∈ v :: vs := by
  induction vs with
  | nil => intro v; simp
  | cons a t ih =>
    intro v
    have h := ih (max v a)
    simp only [List.foldl_cons]
    rcases List.mem_cons.mp h with h1 | h2
    · rcases max_choice v a with hv | ha
      · rw [h1, hv]; exact List.mem_cons_self _ _
      · rw [h1, ha]; exact List.mem_cons_of_mem _ (List.mem_cons_self _ _)
    · exact List.mem_cons_of_mem _ (List.mem_cons_of_mem _ h2)

theorem foldl_max_le (vs : List ℚ) :
    ∀ v : ℚ, v ≤ vs.foldl max v ∧ ∀ x ∈ vs, x ≤ vs.foldl max v := by
  induction vs with
  | nil => intro v; exact ⟨le_refl v, by simp⟩
  | cons a t ih =>
    intro v
    obtain ⟨h1, h2⟩ := ih (max v a)
    simp only [List.foldl_cons]
    refine ⟨le_trans (le_max_left v a) h1, ?_⟩
    intro x hx
    rcases List.mem_cons.mp hx with rfl | hx
    · exact le_trans (le_max_right v x) h1
    · exact h2 x hx

-- ---------------------------------------------------------------------------
-- Claim C1 (code_bug): compute_verdict raises on the documented non-finite
-- CC sentinels instead of returning them.
-- ---------------------------------------------------------------------------

/-- C1: the claim says every validated `RunBundle` — including one with an
empty `J_baselines` mapping — yields a `Verdict` carrying the §4.1 CC value
(NaN sentinel with no baselines, `+inf` in the zero-denominator cases)
without raising.  The code disagrees: `Verdict` validation rejects any
non-finite CC, so `compute_verdict` raises a validation error exactly in
those edge cases.  This theorem evaluates the code at two such inputs:
empty baselines (CC = NaN) and a zero best baseline with positive composed
J under minimize (CC = +inf). -/
theorem compute_verdict_nonfinite_cc_error :
    compute_verdict
      { theta := 0, patterns := [], rule := "r", J_baselines := [],
        J_composed := 1, objective := .minimize } =
      .error "CC must be a finite, non-negative float, got nan" ∧
    compute_verdict
      { theta := 0, patterns := [], rule := "r", J_baselines := [("A", 0)],
        J_composed := 1, objective := .minimize } =
      .error "CC must be a finite, non-negative float, got inf" := by
  constructor <;> with_unfolding_all decide

-- ---------------------------------------------------------------------------
-- Claim C6 (corrected): pinned classify_cc labels; 0.94 is Constructive,
-- not Independent.
-- ---------------------------------------------------------------------------

/-- C6 counterexample: the claim pins `classify_cc(0.94) = Independent`,
but `0.94 < 1 - 0.05`, so the code returns `Constructive` at `0.94`. -/
theorem classify_cc_at_094_is_constructive :
    classify_cc (F.fin (47 / 50)) (F.fin INDEPENDENT_TOL) = .Constructive ∧
    CCLabel.Constructive ≠ CCLabel.Independent := by
  constructor
  · with_unfolding_all decide
  · with_unfolding_all decide

/-- C6 (amended): pinned labels of `classify_cc` at the default tolerance:
0.5 ↦ Constructive, 1.0 ↦ Independent, 1.5 ↦ Destructive,
0.94 ↦ Constructive (it lies below the 0.95 band boundary), and the
non-finite inputs NaN and +inf ↦ Independent. -/
theorem classify_cc_pinned_labels :
    classify_cc (F.fin (1 / 2)) (F.fin INDEPENDENT_TOL) = .Constructive ∧
    classify_cc (F.fin 1) (F.fin INDEPENDENT_TOL) = .Independent ∧
    classify_cc (F.fin (3 / 2)) (F.fin INDEPENDENT_TOL) = .Destructive ∧
    classify_cc (F.fin (47 / 50)) (F.fin INDEPENDENT_TOL) = .Constructive ∧
    classify_cc F.nan (F.fin INDEPENDENT_TOL) = .Independent ∧
    classify_cc F.inf (F.fin INDEPENDENT_TOL) = .Independent := by
  refine ⟨?_, ?_, ?_, ?_, ?_, ?_⟩ <;> with_unfolding_all decide

-- ---------------------------------------------------------------------------
-- Claim C7 (confirmed): end-to-end scenario A.
-- ---------------------------------------------------------------------------

/-- C7: on scenario A (baselines `{A: 1.0, B: 1.2}`, composed `0.8`,
objective minimize, θ=0.3, rule `blend`, patterns `prior`, `denoiser`),
`compute_verdict` returns CC = 0.8, label Constructive, exactly the pinned
recommendation sentence, 3 next tests, and 4 checklist entries. -/
theorem compute_verdict_scenario_A :
    (compute_verdict bundleA).toOption.map
        (fun v => (v.CC, v.label, v.recommendation, v.next_tests.length,
          v.checklist.length)) =
      some (F.fin (4 / 5), .Constructive,
        "Lean into the synergy. Rule \x27blend\x27 at θ=0.30 delivers 0.8 " ++
          "vs singleton \x27A\x27=1 (CC=0.80, objective=minimize). " ++
          "Patterns in play: prior, denoiser.", 3, 4) := by
  with_unfolding_all decide

-- ---------------------------------------------------------------------------
-- Claim C8 (corrected): the invalid-policy error fires only in the
-- small-denominator branch.
-- ---------------------------------------------------------------------------

/-- C8 counterexample: with denominator `max(1.0, 1.0) = 1.0` above the
default `eps = 1e-12`, an unsupported policy name (`"bogus"`) does not
raise: the policy is never consulted and the quotient is returned. -/
theorem compute_cc_max_ignores_policy_when_denom_large :
    compute_cc_max (F.fin 1) (F.fin 1) (F.fin 1)
      (F.fin (1 / 1000000000000)) "bogus" = .ok (F.fin 1) := by
  with_unfolding_all decide

-- ---------------------------------------------------------------------------
-- Claim C2 (confirmed): the ratio formula of compute_cc.
-- ---------------------------------------------------------------------------

/-- C2: for a baseline mapping with at least one finite value and finite
composed J: under minimize, `compute_cc` returns `J_composed / best` where
`best` is the minimum of the finite baseline values (when nonzero); under
maximize it returns `best / J_composed` with `best` the maximum of the
finite values (when `J_composed` is positive); non-finite baseline entries
are ignored when selecting `best`. -/
theorem compute_cc_ratio_formula (bs : List (String × F)) (q : ℚ)
    (hfin : ∃ kv ∈ bs, kv.2.isFinite = true) :
    ∃ bmin bmax : ℚ,
      bmin ∈ finiteVals bs ∧ (∀ x ∈ finiteVals bs, bmin ≤ x) ∧
      bmax ∈ finiteVals bs ∧ (∀ x ∈ finiteVals bs, x ≤ bmax) ∧
      (bmin ≠ 0 → compute_cc bs (F.fin q) .minimize = F.fin (q / bmin)) ∧
      (0 < q → compute_cc bs (F.fin q) .maximize = F.fin (bmax / q)) := by
  obtain ⟨kv, hmem, hf⟩ := hfin
  obtain ⟨q0, hq0⟩ : ∃ q0, kv.2 = F.fin q0 := by
    cases h : kv.2 <;> simp [F.isFinite, h] at hf ⊢
  have hq0mem : q0 ∈ finiteVals bs := by
    apply List.mem_filterMap.mpr
    exact ⟨kv, hmem, by rw [hq0]⟩
  have hne : finiteVals bs ≠ [] := by
    intro h; rw [h] at hq0mem; exact absurd hq0mem (List.not_mem_nil q0)
  have hbsne : bs ≠ [] := by
    intro h; subst h; simp [finiteVals] at hq0mem
  obtain ⟨v, vs, hfv⟩ : ∃ v vs, finiteVals bs = v :: vs := by
    cases h : finiteVals bs with
    | nil => exact absurd h hne
    | cons v vs => exact ⟨v, vs, rfl⟩
  have hbmin : bestSingletonValue bs .minimize = some (vs.foldl min v) := by
    simp [bestSingletonValue, hbsne, hfv]
  have hbmax : bestSingletonValue bs .maximize = some (vs.foldl max v) := by
    simp [bestSingletonValue, hbsne, hfv]
  refine ⟨vs.foldl min v, vs.foldl max v, ?_, ?_, ?_, ?_, ?_, ?_⟩
  · rw [hfv]; exact foldl_min_mem vs v
  · intro x hx
    rw [hfv] at hx
    rcases List.mem_cons.mp hx with rfl | hx
    · exact (foldl_min_le vs x).1
    · exact (foldl_min_le vs v).2 x hx
  · rw [hfv]; exact foldl_max_mem vs v
  · intro x hx
    rw [hfv] at hx
    rcases List.mem_cons.mp hx with rfl | hx
    · exact (foldl_max_le vs x).1
    · exact (foldl_max_le vs v).2 x hx
  · intro hb0
    simp [compute_cc, hbmin, hb0, F.div_fin q _ hb0]
  · intro hq
    have hqle : ¬ (q ≤ 0) := not_le.mpr hq
    simp [compute_cc, hbmax, F.le_fin, hqle, F.div_fin _ q (ne_of_gt hq)]

/-- Witness for C2 at the singleton mapping `{a: 2.0}` with composed 1.0. -/
theorem compute_cc_ratio_formula_witness :
    (∃ kv ∈ [("a", F.fin 2)], kv.2.isFinite = true) ∧
    (∃ bmin bmax : ℚ,
      bmin ∈ finiteVals [("a", F.fin 2)] ∧
      (∀ x ∈ finiteVals [("a", F.fin 2)], bmin ≤ x) ∧
      bmax ∈ finiteVals [("a", F.fin 2)] ∧
      (∀ x ∈ finiteVals [("a", F.fin 2)], x ≤ bmax) ∧
      (bmin ≠ 0 →
        compute_cc [("a", F.fin 2)] (F.fin 1) .minimize = F.fin (1 / bmin)) ∧
      (0 < (1 : ℚ) →
        compute_cc [("a", F.fin 2)] (F.fin 1) .maximize = F.fin (bmax / 1))) :=
  have h : ∃ kv ∈ [("a", F.fin 2)], kv.2.isFinite = true :=
    ⟨("a", F.fin 2), by simp, rfl⟩
  ⟨h, compute_cc_ratio_formula [("a", F.fin 2)] 1 h⟩

-- ---------------------------------------------------------------------------
-- Claim C3 (confirmed): the §4.1 edge-case policy of compute_cc.
-- ---------------------------------------------------------------------------

/-- C3: `compute_cc` implements the §4.1 edge-case policy: NaN when no
finite baseline value exists; under minimize with best = 0, 1.0 for
composed J equal to 0 and +inf otherwise; under maximize with composed
J ≤ 0, 1.0 when best ≤ 0 and +inf otherwise. -/
theorem compute_cc_edge_case_policy :
    (∀ (bs : List (String × F)) (jc : F) (obj : Objective),
      finiteVals bs = [] → compute_cc bs jc obj = F.nan) ∧
    (∀ (bs : List (String × F)) (jc : F),
      bestSingletonValue bs .minimize = some 0 →
      (jc = F.fin 0 → compute_cc bs jc .minimize = F.fin 1) ∧
      (jc ≠ F.fin 0 → compute_cc bs jc .minimize = F.inf)) ∧
    (∀ (bs : List (String × F)) (b c : ℚ),
      bestSingletonValue bs .maximize = some b → c ≤ 0 →
      (b ≤ 0 → compute_cc bs (F.fin c) .maximize = F.fin 1) ∧
      (0 < b → compute_cc bs (F.fin c) .maximize = F.inf)) := by
  refine ⟨?_, ?_, ?_⟩
  · intro bs jc obj hfv
    have hnone : bestSingletonValue bs obj = none := by
      by_cases hbs : bs = []
      · simp [bestSingletonValue, hbs]
      · simp [bestSingletonValue, hbs, hfv]
    simp [compute_cc, hnone]
  · intro bs jc hbest
    constructor
    · intro hjc
      subst hjc
      simp [compute_cc, hbest, F.feq]
    · intro hjc
      have : F.feq jc (F.fin 0) = false := by
        rcases h : F.feq jc (F.fin 0) with _ | _
        · rfl
        · exact absurd ((F.feq_fin_zero_iff jc).mp h) hjc
      simp [compute_cc, hbest, this]
  · intro bs b c hbest hc
    have hle : F.le (F.fin c) (F.fin 0) = true := by
      simp [F.le_fin, hc]
    constructor
    · intro hb
      simp [compute_cc, hbest, hle, hb]
    · intro hb
      simp [compute_cc, hbest, hle, not_le.mpr hb]

/-- Witness for C3 at concrete edge inputs: an all-non-finite mapping, a
zero best baseline under minimize, and a positive best baseline with zero
composed J under maximize. -/
theorem compute_cc_edge_case_policy_witness :
    compute_cc [("a", F.nan)] (F.fin 5) .minimize = F.nan ∧
    compute_cc [("a", F.fin 0)] (F.fin 1) .minimize = F.inf ∧
    compute_cc [("a", F.fin 5)] (F.fin 0) .maximize = F.inf := by
  refine ⟨?_, ?_, ?_⟩
  · exact compute_cc_edge_case_policy.1 _ _ _ (by with_unfolding_all decide)
  · exact (compute_cc_edge_case_policy.2.1 _ _
      (by with_unfolding_all decide)).2 (by with_unfolding_all decide)
  · exact (compute_cc_edge_case_policy.2.2 _ 5 0
      (by with_unfolding_all decide) le_rfl).2 (by norm_num)

-- ---------------------------------------------------------------------------
-- Claim C4 (confirmed): the classification band of classify_cc.
-- ---------------------------------------------------------------------------

/-- C4: `classify_cc` returns Independent for every non-finite cc;
for finite cc and tolerance it returns Constructive when `cc < 1 - tol`,
otherwise Destructive when `cc > 1 + tol`, and Independent in all
remaining cases. -/
theorem classify_cc_band :
    (∀ (cc tol : F), cc.isFinite = false → classify_cc cc tol = .Independent) ∧
    (∀ (q t : ℚ),
      (q < 1 - t → classify_cc (F.fin q) (F.fin t) = .Constructive) ∧
      (¬ q < 1 - t → 1 + t < q → classify_cc (F.fin q) (F.fin t) = .Destructive) ∧
      (¬ q < 1 - t → ¬ 1 + t < q →
        classify_cc (F.fin q) (F.fin t) = .Independent)) := by
  constructor
  · intro cc tol h
    simp [classify_cc, h]
  · intro q t
    refine ⟨?_, ?_, ?_⟩
    · intro h
      simp [classify_cc, F.isFinite, F.sub_fin, F.add_fin, F.lt_fin, h]
    · intro h1 h2
      simp [classify_cc, F.isFinite, F.sub_fin, F.add_fin, F.lt_fin, h1, h2]
    · intro h1 h2
      simp [classify_cc, F.isFinite, F.sub_fin, F.add_fin, F.lt_fin, h1, h2]

/-- Witness for C4: Independent at NaN, and Constructive at cc = 0.5 with
the default tolerance. -/
theorem classify_cc_band_witness :
    classify_cc F.nan (F.fin INDEPENDENT_TOL) = .Independent ∧
    classify_cc (F.fin (1 / 2)) (F.fin (1 / 20)) = .Constructive := by
  constructor
  · exact classify_cc_band.1 _ _ rfl
  · exact (classify_cc_band.2 (1 / 2) (1 / 20)).1 (by norm_num)

-- ---------------------------------------------------------------------------
-- Claim C5 (corrected): orientation of CC.
-- ---------------------------------------------------------------------------

/-- C5 counterexample: with baselines `{A: -2.0}` and composed `-1.0`
under minimize, `compute_cc = (-1)/(-2) = 0.5 < 1`, yet the composition is
NOT strictly better than the best singleton for minimize
(`-1 < -2` is false): the claimed uniform orientation fails when the best
singleton value is negative. -/
theorem cc_orientation_fails_on_negative_best :
    F.lt (compute_cc [("A", F.fin (-2))] (F.fin (-1)) .minimize)
      (F.fin 1) = true ∧
    ¬ ((-1 : ℚ) < -2) := by
  constructor
  · with_unfolding_all decide
  · norm_num

/-- C5 (amended): the orientation `CC < 1 only-if strictly better` and
`CC > 1 only-if strictly worse` holds for maximize unconditionally, and
for minimize whenever the best singleton value is positive. -/
theorem cc_orientation_amended (bs : List (String × F)) (q : ℚ) :
    (∀ b : ℚ, bestSingletonValue bs .minimize = some b → 0 < b →
      (F.lt (compute_cc bs (F.fin q) .minimize) (F.fin 1) = true → q < b) ∧
      (F.lt (F.fin 1) (compute_cc bs (F.fin q) .minimize) = true → b < q)) ∧
    (∀ b : ℚ, bestSingletonValue bs .maximize = some b →
      (F.lt (compute_cc bs (F.fin q) .maximize) (F.fin 1) = true → b < q) ∧
      (F.lt (F.fin 1) (compute_cc bs (F.fin q) .maximize) = true → q < b)) := by
  constructor
  · intro b hbest hb
    have hb0 : b ≠ 0 := ne_of_gt hb
    have hcc : compute_cc bs (F.fin q) .minimize = F.fin (q / b) := by
      simp [compute_cc, hbest, hb0, F.div_fin q b hb0]
    rw [hcc]
    constructor
    · intro h
      rw [F.lt_fin, decide_eq_true_iff] at h
      exact (div_lt_one hb).mp h
    · intro h
      rw [F.lt_fin, decide_eq_true_iff] at h
      exact (one_lt_div hb).mp h
  · intro b hbest
    by_cases hq : q ≤ 0
    · have hle : F.le (F.fin q) (F.fin 0) = true := by simp [F.le_fin, hq]
      by_cases hb : b ≤ 0
      · have hcc : compute_cc bs (F.fin q) .maximize = F.fin 1 := by
          simp [compute_cc, hbest, hle, hb]
        rw [hcc]
        constructor <;> intro h <;> rw [F.lt_fin, decide_eq_true_iff] at h <;>
          exact absurd h (lt_irrefl 1)
      · have hcc : compute_cc bs (F.fin q) .maximize = F.inf := by
          simp [compute_cc, hbest, hle, hb]
        rw [hcc]
        constructor
        · intro h
          exact absurd h (by simp [F.lt])
        · intro _
          exact lt_of_le_of_lt hq (not_le.mp hb)
    · have hq' : 0 < q := not_le.mp hq
      have hle : F.le (F.fin q) (F.fin 0) = false := by
        simp [F.le_fin, hq]
      have hcc : compute_cc bs (F.fin q) .maximize = F.fin (b / q) := by
        simp [compute_cc, hbest, hle, F.div_fin b q (ne_of_gt hq')]
      rw [hcc]
      constructor
      · intro h
        rw [F.lt_fin, decide_eq_true_iff] at h
        exact (div_lt_one hq').mp h
      · intro h
        rw [F.lt_fin, decide_eq_true_iff] at h
        exact (one_lt_div hq').mp h

/-- Witness for C5 (amended) at baselines `{a: 2.0}`, composed 1.0,
minimize: CC = 0.5 < 1 and indeed 1 < 2. -/
theorem cc_orientation_amended_witness :
    F.lt (compute_cc [("a", F.fin 2)] (F.fin 1) .minimize) (F.fin 1) = true ∧
    (1 : ℚ) < 2 := by
  constructor
  · with_unfolding_all decide
  · exact ((cc_orientation_amended [("a", F.fin 2)] 1).1 2
      (by with_unfolding_all decide) (by norm_num)).1
      (by with_unfolding_all decide)

/-- C8 (amended): `compute_cc_max` consults `zero_denom_policy` only when
`max(j_dfa, j_dp) <= eps`; there an unsupported name raises the
configuration error naming the invalid value and the supported names
(case-insensitively) return 1.0 / NaN / 0.0.  When the denominator exceeds
`eps` the policy is ignored and `j_observed / max(j_dfa, j_dp)` is
returned, except that a denominator of exactly zero (possible only for a
negative `eps`) raises a division error. -/
theorem compute_cc_max_policy_behaviour (jo jd jp eps : F) (pol : String) :
    (F.le (pymax jd jp) eps = true →
      (pol.toLower = "independent" →
        compute_cc_max jo jd jp eps pol = .ok (F.fin 1)) ∧
      (pol.toLower = "nan" →
        compute_cc_max jo jd jp eps pol = .ok F.nan) ∧
      (pol.toLower = "zero" →
        compute_cc_max jo jd jp eps pol = .ok (F.fin 0)) ∧
      (pol.toLower ≠ "independent" → pol.toLower ≠ "nan" →
        pol.toLower ≠ "zero" →
        compute_cc_max jo jd jp eps pol = .error (ccMaxPolicyError pol))) ∧
    (F.le (pymax jd jp) eps = false → pymax jd jp ≠ F.fin 0 →
      compute_cc_max jo jd jp eps pol = .ok (F.div jo (pymax jd jp))) ∧
    (F.le (pymax jd jp) eps = false → pymax jd jp = F.fin 0 →
      compute_cc_max jo jd jp eps pol = .error "float division by zero") := by
  refine ⟨?_, ?_, ?_⟩
  · intro hle
    refine ⟨?_, ?_, ?_, ?_⟩
    · intro hp; simp [compute_cc_max, hle, hp]
    · intro hp; simp [compute_cc_max, hle, hp]
    · intro hp; simp [compute_cc_max, hle, hp]
    · intro h1 h2 h3; simp [compute_cc_max, hle, h1, h2, h3]
  · intro hle hz
    simp [compute_cc_max, hle, hz]
  · intro hle hz
    rw [hz] at hle
    simp [compute_cc_max, hz, hle]

/-- Witness for C8 (amended): the `"NaN"` policy (case-insensitive) in the
small-denominator branch, and the quotient in the large-denominator
branch with the policy ignored. -/
theorem compute_cc_max_policy_behaviour_witness :
    compute_cc_max (F.fin 1) (F.fin 0) (F.fin 0)
      (F.fin (1 / 1000000000000)) "NaN" = .ok F.nan ∧
    compute_cc_max (F.fin 3) (F.fin 2) (F.fin 1)
      (F.fin (1 / 1000000000000)) "whatever" =
      .ok (F.div (F.fin 3) (F.fin 2)) := by
  constructor
  · exact ((compute_cc_max_policy_behaviour (F.fin 1) (F.fin 0) (F.fin 0)
      (F.fin (1 / 1000000000000)) "NaN").1
      (by with_unfolding_all decide)).2.1 (by with_unfolding_all decide)
  · exact (compute_cc_max_policy_behaviour (F.fin 3) (F.fin 2) (F.fin 1)
      (F.fin (1 / 1000000000000)) "whatever").2.1
      (by with_unfolding_all decide) (by with_unfolding_all decide)

-- ---------------------------------------------------------------------------
-- Claim C9 (confirmed): the youden_j contract.
-- ---------------------------------------------------------------------------

theorem youdenElem_nonfin (x y : F) (h : (F.sub x y).isFinite = false) :
    youdenElem x y = F.sub x y := by
  cases hs : F.sub x y with
  | fin q => rw [hs] at h; simp [F.isFinite] at h
  | inf => simp [youdenElem, hs]
  | ninf => simp [youdenElem, hs]
  | nan => simp [youdenElem, hs]

theorem getD_map_lt (f : F → F) (l : List F) :
    ∀ i, i < l.length → (l.map f).getD i F.nan = f (l.getD i F.nan) := by
  induction l with
  | nil => intro i h; simp at h
  | cons a t ih =>
    intro i h
    cases i with
    | zero => simp
    | succ n =>
      simp only [List.map_cons, List.getD_cons_succ]
      exact ih n (by simpa using h)

theorem getD_zipWith_lt (f : F → F → F) :
    ∀ (xs ys : List F) (i : Nat), i < xs.length → i < ys.length →
      (List.zipWith f xs ys).getD i F.nan =
        f (xs.getD i F.nan) (ys.getD i F.nan) := by
  intro xs
  induction xs with
  | nil => intro ys i h; simp at h
  | cons a t ih =>
    intro ys i hx hy
    cases ys with
    | nil => simp at hy
    | cons b u =>
      cases i with
      | zero => simp
      | succ n =>
        simp only [List.zipWith_cons_cons, List.getD_cons_succ]
        exact ih u n (by simpa using hx) (by simpa using hy)

/-- C9: `youden_j` computes `tpr - fpr` elementwise, clipping finite
differences to `[-1, 1]` and propagating non-finite differences unclipped;
two scalar inputs yield a scalar result, any array input yields an array
result of the broadcast length, with elements drawn by the NumPy
broadcasting rule (a length-1 side stretches). -/
theorem youden_j_contract :
    (∀ a b : ℚ, youden_j (.scalar (F.fin a)) (.scalar (F.fin b)) =
      .ok (.scalar (F.fin (max (-1) (min 1 (a - b)))))) ∧
    (∀ x y : F, (F.sub x y).isFinite = false →
      youden_j (.scalar x) (.scalar y) = .ok (.scalar (F.sub x y))) ∧
    (∀ (x : F) (ys : List F), ∃ zs,
      youden_j (.scalar x) (.arr ys) = .ok (.arr zs) ∧
      zs.length = ys.length ∧
      ∀ i, i < zs.length → zs.getD i F.nan = youdenElem x (ys.getD i F.nan)) ∧
    (∀ (xs : List F) (y : F), ∃ zs,
      youden_j (.arr xs) (.scalar y) = .ok (.arr zs) ∧
      zs.length = xs.length ∧
      ∀ i, i < zs.length → zs.getD i F.nan = youdenElem (xs.getD i F.nan) y) ∧
    (∀ xs ys : List F,
      (xs.length = ys.length ∨ xs.length = 1 ∨ ys.length = 1) →
      ∃ zs, youden_j (.arr xs) (.arr ys) = .ok (.arr zs) ∧
        zs.length = (if xs.length = 1 then ys.length else xs.length) ∧
        ∀ i, i < zs.length →
          zs.getD i F.nan =
            youdenElem (xs.getD (if xs.length = 1 then 0 else i) F.nan)
              (ys.getD (if ys.length = 1 then 0 else i) F.nan)) := by
  refine ⟨?_, ?_, ?_, ?_, ?_⟩
  · intro a b
    simp [youden_j, youdenElem, F.sub_fin]
  · intro x y h
    simp [youden_j, youdenElem_nonfin x y h]
  · intro x ys
    refine ⟨ys.map fun y => youdenElem x y, rfl, by simp, ?_⟩
    intro i hi
    simp only [List.length_map] at hi
    exact getD_map_lt (fun y => youdenElem x y) ys i hi
  · intro xs y
    refine ⟨xs.map fun x => youdenElem x y, rfl, by simp, ?_⟩
    intro i hi
    simp only [List.length_map] at hi
    exact getD_map_lt (fun x => youdenElem x y) xs i hi
  · intro xs ys hcomp
    by_cases h1 : xs.length = ys.length
    · refine ⟨List.zipWith youdenElem xs ys, ?_, ?_, ?_⟩
      · simp [youden_j, broadcastYouden, h1]
      · simp [List.length_zipWith, h1, ite_self]
      · intro i hi
        rw [List.length_zipWith, h1, min_self] at hi
        rw [getD_zipWith_lt youdenElem xs ys i (h1 ▸ hi) hi]
        by_cases hx1 : xs.length = 1
        · have hy1 : ys.length = 1 := h1 ▸ hx1
          have hi0 : i = 0 := Nat.lt_one_iff.mp (hy1 ▸ hi)
          simp [hx1, hy1, hi0]
        · have hy1 : ys.length ≠ 1 := fun h => hx1 (h1.trans h)
          simp [hx1, hy1]
    · by_cases h2 : xs.length = 1
      · have hy1 : ys.length ≠ 1 := fun h => h1 (h2.trans h.symm)
        have hb : broadcastYouden xs ys =
            some (ys.map fun y => youdenElem (xs.getD 0 F.nan) y) := by
          unfold broadcastYouden
          rw [if_neg h1, if_pos h2]
        refine ⟨ys.map fun y => youdenElem (xs.getD 0 F.nan) y, ?_, ?_, ?_⟩
        · simp [youden_j, hb]
        · simp [h2]
        · intro i hi
          simp only [List.length_map] at hi
          rw [getD_map_lt (fun y => youdenElem (xs.getD 0 F.nan) y) ys i hi]
          simp [h2, hy1]
      · have h3 : ys.length = 1 := by tauto
        have hb : broadcastYouden xs ys =
            some (xs.map fun x => youdenElem x (ys.getD 0 F.nan)) := by
          unfold broadcastYouden
          rw [if_neg h1, if_neg h2, if_pos h3]
        refine ⟨xs.map fun x => youdenElem x (ys.getD 0 F.nan), ?_, ?_, ?_⟩
        · simp [youden_j, hb]
        · simp [h2]
        · intro i hi
          simp only [List.length_map] at hi
          rw [getD_map_lt (fun x => youdenElem x (ys.getD 0 F.nan)) xs i hi]
          simp [h2, h3]

/-- Witness for C9: the NaN difference `inf - inf` propagates unclipped,
and a 2-vs-1 broadcast produces a length-2 array. -/
theorem youden_j_contract_witness :
    youden_j (.scalar F.inf) (.scalar F.inf) = .ok (.scalar (F.sub F.inf F.inf)) ∧
    (∃ zs, youden_j (.arr [F.fin 1, F.fin 3]) (.arr [F.fin 1]) = .ok (.arr zs) ∧
      zs.length =
        (if ([F.fin 1, F.fin 3] : List F).length = 1 then
          ([F.fin 1] : List F).length
        else ([F.fin 1, F.fin 3] : List F).length) ∧
      ∀ i, i < zs.length →
        zs.getD i F.nan =
          youdenElem
            (([F.fin 1, F.fin 3] : List F).getD
              (if ([F.fin 1, F.fin 3] : List F).length = 1 then 0 else i) F.nan)
            (([F.fin 1] : List F).getD
              (if ([F.fin 1] : List F).length = 1 then 0 else i) F.nan)) := by
  constructor
  · exact youden_j_contract.2.1 F.inf F.inf rfl
  · exact youden_j_contract.2.2.2.2 [F.fin 1, F.fin 3] [F.fin 1]
      (Or.inr (Or.inr rfl))

-- ---------------------------------------------------------------------------
-- Claim C10 (confirmed): RunBundle validation enforces the §3 invariants.
-- ---------------------------------------------------------------------------

theorem validateJMap_error_of_nonfinite :
    ∀ (raw : List (String × RawNum)) (k : String) (x : F),
      (k, RawNum.num x) ∈ raw → x.isFinite = false →
      ∃ msg, validateJMap raw = .error msg := by
  intro raw
  induction raw with
  | nil => intro k x hmem; simp at hmem
  | cons hd tl ih =>
    intro k x hmem hfin
    obtain ⟨k0, v0⟩ := hd
    rcases List.mem_cons.mp hmem with heq | hmem'
    · obtain ⟨hk, hv⟩ := Prod.mk.injEq .. ▸ heq
      subst hk
      rw [← hv]
      cases x with
      | fin q => simp [F.isFinite] at hfin
      | inf => exact ⟨_, rfl⟩
      | ninf => exact ⟨_, rfl⟩
      | nan => exact ⟨_, rfl⟩
    · obtain ⟨msg, hmsg⟩ := ih k x hmem' hfin
      cases v0 with
      | num x0 =>
        cases x0 with
        | fin q => exact ⟨msg, by simp only [validateJMap, hmsg]; rfl⟩
        | inf => exact ⟨_, rfl⟩
        | ninf => exact ⟨_, rfl⟩
        | nan => exact ⟨_, rfl⟩
      | nonnum => exact ⟨_, rfl⟩

theorem validateJMap_error_of_nonnum :
    ∀ (raw : List (String × RawNum)) (k : String),
      (k, RawNum.nonnum) ∈ raw → ∃ msg, validateJMap raw = .error msg := by
  intro raw
  induction raw with
  | nil => intro k hmem; simp at hmem
  | cons hd tl ih =>
    intro k hmem
    obtain ⟨k0, v0⟩ := hd
    rcases List.mem_cons.mp hmem with heq | hmem'
    · obtain ⟨hk, hv⟩ := Prod.mk.injEq .. ▸ heq
      subst hk
      rw [← hv]
      exact ⟨_, rfl⟩
    · obtain ⟨msg, hmsg⟩ := ih k hmem'
      cases v0 with
      | num x0 =>
        cases x0 with
        | fin q => exact ⟨msg, by simp only [validateJMap, hmsg]; rfl⟩
        | inf => exact ⟨_, rfl⟩
        | ninf => exact ⟨_, rfl⟩
        | nan => exact ⟨_, rfl⟩
      | nonnum => exact ⟨_, rfl⟩

theorem validateJMap_ok_finite :
    ∀ (raw : List (String × RawNum)) (m : List (String × ℚ)),
      validateJMap raw = .ok m →
      ∀ kv ∈ raw, ∃ q : ℚ, kv.2 = RawNum.num (F.fin q) := by
  intro raw
  induction raw with
  | nil => intro m _ kv hmem; simp at hmem
  | cons hd tl ih =>
    intro m hok kv hmem
    obtain ⟨k0, v0⟩ := hd
    cases v0 with
    | num x0 =>
      cases x0 with
      | fin q =>
        cases htl : validateJMap tl with
        | error e => rw [validateJMap, htl] at hok; simp [Except.map] at hok
        | ok m' =>
          rcases List.mem_cons.mp hmem with heq | hmem'
          · exact ⟨q, by rw [heq]⟩
          · exact ih m' htl kv hmem'
      | inf => simp [validateJMap] at hok
      | ninf => simp [validateJMap] at hok
      | nan => simp [validateJMap] at hok
    | nonnum => simp [validateJMap] at hok

theorem validateObjective_ok_minimize_iff (s : String) :
    validateObjective s = .ok .minimize ↔ s = "minimize" := by
  by_cases h1 : s = "minimize"
  · subst h1
    exact iff_of_true (by with_unfolding_all decide) rfl
  · by_cases h2 : s = "maximize"
    · subst h2
      exact iff_of_false (by with_unfolding_all decide) (by simp)
    · have hcond : ¬ (s = "minimize" ∨ s = "maximize") := by tauto
      unfold validateObjective
      rw [if_neg hcond]
      exact iff_of_false (by simp) h1

theorem validateObjective_ok_maximize_iff (s : String) :
    validateObjective s = .ok .maximize ↔ s = "maximize" := by
  by_cases h1 : s = "minimize"
  · subst h1
    exact iff_of_false (by with_unfolding_all decide) (by simp)
  · by_cases h2 : s = "maximize"
    · subst h2
      exact iff_of_true (by with_unfolding_all decide) rfl
    · have hcond : ¬ (s = "minimize" ∨ s = "maximize") := by tauto
      unfold validateObjective
      rw [if_neg hcond]
      exact iff_of_false (by simp) h2

theorem validatePatterns_mem (ps : List String) (p : String)
    (hp : p ∈ validatePatterns ps) : p ≠ "" ∧ ∃ t ∈ ps, p = t.trim := by
  unfold validatePatterns at hp
  obtain ⟨hmem, hne⟩ := List.mem_filter.mp hp
  obtain ⟨t, ht, htp⟩ := List.mem_map.mp hmem
  exact ⟨by simpa using hne, t, ht, htp.symm⟩

theorem bestSingletonValue_of_validated (b : RunBundle) (obj : Objective)
    (hne : b.J_baselines ≠ []) :
    bestSingletonValue (b.J_baselines.map fun kv => (kv.1, F.fin kv.2)) obj ≠
      none := by
  cases hjb : b.J_baselines with
  | nil => exact absurd hjb hne
  | cons hd tl =>
    cases obj <;>
      simp [bestSingletonValue, finiteVals, List.filterMap_cons]

/-- C10 counterexample: the claim says `RunBundle` construction
"normalizes the objective string case-insensitively"; it does not.
Pydantic's core validation of the annotated
`Literal["minimize", "maximize"]` type runs before the `mode="after"`
validator `_objective_ok`, so a case variant such as `"MAXIMIZE"` or
`" MINIMIZE "` is rejected with the core Literal error and the
strip/lower normalisation never runs. -/
theorem validateObjective_rejects_case_variants :
    validateObjective "MAXIMIZE" =
      .error "Input should be \x27minimize\x27 or \x27maximize\x27" ∧
    validateObjective " MINIMIZE " =
      .error "Input should be \x27minimize\x27 or \x27maximize\x27" ∧
    validateObjective "MAXIMIZE" ≠ .ok .maximize := by
  refine ⟨?_, ?_, ?_⟩ <;> with_unfolding_all decide

/-- C10 (amended): constructing a `RunBundle` enforces the §3 invariants
itself: non-finite theta is rejected; non-finite or non-numeric
`J_composed` is rejected; any non-finite or non-numeric `J_baselines`
entry is rejected (so an accepted mapping consists of finite numerics
only); the objective field accepts exactly the strings
`minimize` / `maximize` and rejects everything else — case variants
included, because pydantic's core Literal check precedes the
`mode="after"` validator whose case-insensitive normalisation is
therefore dead code; patterns are coerced to stripped strings with blanks
dropped; and consequently, for every validated bundle with a non-empty
baseline mapping, the all-baselines-non-finite NaN branch of `compute_cc`
(`_best_singleton_value` returning None on a non-empty mapping) is
unreachable through `compute_verdict`. -/
theorem runBundle_validation_invariants :
    (∀ x : F, x.isFinite = false →
      validateTheta x = .error "theta must be a finite float") ∧
    (∀ x : F, x.isFinite = false →
      ∃ msg, validateJComposed (.num x) = .error msg) ∧
    (validateJComposed .nonnum = .error "J_composed must be numeric") ∧
    (∀ (raw : List (String × RawNum)) (k : String) (x : F),
      (k, RawNum.num x) ∈ raw → x.isFinite = false →
      ∃ msg, validateJMap raw = .error msg) ∧
    (∀ (raw : List (String × RawNum)) (k : String),
      (k, RawNum.nonnum) ∈ raw → ∃ msg, validateJMap raw = .error msg) ∧
    (∀ (raw : List (String × RawNum)) (m : List (String × ℚ)),
      validateJMap raw = .ok m →
      ∀ kv ∈ raw, ∃ q : ℚ, kv.2 = RawNum.num (F.fin q)) ∧
    (∀ s, validateObjective s = .ok .minimize ↔ s = "minimize") ∧
    (∀ s, validateObjective s = .ok .maximize ↔ s = "maximize") ∧
    (∀ (ps : List String) (p : String), p ∈ validatePatterns ps →
      p ≠ "" ∧ ∃ t ∈ ps, p = t.trim) ∧
    (∀ (b : RunBundle) (obj : Objective), b.J_baselines ≠ [] →
      bestSingletonValue (b.J_baselines.map fun kv => (kv.1, F.fin kv.2)) obj ≠
        none) := by
  refine ⟨?_, ?_, rfl, validateJMap_error_of_nonfinite,
    validateJMap_error_of_nonnum, validateJMap_ok_finite,
    validateObjective_ok_minimize_iff, validateObjective_ok_maximize_iff,
    validatePatterns_mem, bestSingletonValue_of_validated⟩
  · intro x hx
    cases x with
    | fin q => simp [F.isFinite] at hx
    | inf => rfl
    | ninf => rfl
    | nan => rfl
  · intro x hx
    cases x with
    | fin q => simp [F.isFinite] at hx
    | inf => exact ⟨_, rfl⟩
    | ninf => exact ⟨_, rfl⟩
    | nan => exact ⟨_, rfl⟩

/-- Witness for C10 (amended) at concrete inputs: infinite theta
rejected, a NaN baseline value rejected, the exact objective string
accepted, and a validated non-empty bundle whose best singleton exists. -/
theorem runBundle_validation_invariants_witness :
    validateTheta F.inf = .error "theta must be a finite float" ∧
    (∃ msg, validateJMap [("a", RawNum.num F.nan)] = .error msg) ∧
    validateObjective "minimize" = .ok .minimize ∧
    bestSingletonValue (bundleA.J_baselines.map fun kv => (kv.1, F.fin kv.2))
      .minimize ≠ none := by
  refine ⟨?_, ?_, ?_, ?_⟩
  · exact runBundle_validation_invariants.1 F.inf rfl
  · exact runBundle_validation_invariants.2.2.2.1
      [("a", RawNum.num F.nan)] "a" F.nan (by simp) rfl
  · exact (runBundle_validation_invariants.2.2.2.2.2.2.1 "minimize").mpr rfl
  · exact runBundle_validation_invariants.2.2.2.2.2.2.2.2.2 bundleA .minimize
      (by with_unfolding_all decide)

end GCE
